import Mathlib

/-!
Shallow embedding of the core pipeline of `total_mapper.py` (and the shared
Thursday-fallback helper of `Upstox_access_token.py`): ATM strike rounding,
trading-day resolution, option lookup, best-effort candle/holiday fetching,
symbol normalization, and per-leg persistence.  Python float arithmetic on
prices is idealized as exact rational arithmetic; calendar dates are modelled
as integer day numbers in the proleptic-Gregorian ordinal convention of
Python's `datetime.date.toordinal` (ordinal 1 = 0001-01-01, a Monday), so
`weekday o = (o + 6) % 7` with Monday = 0 exactly as `date.weekday()`.
-/

namespace TradingSetup

/-- Python's `%` on reals with a positive modulus: `a % b = a - b * floor (a / b)`,
always in `[0, b)` for `b > 0`. -/
def pyMod (a b : ℚ) : ℚ := a - b * ⌊a / b⌋

/-- Embedding of `round_to_nearest_50` (total_mapper.py:309-311):
`remainder = price % 50; return price - remainder if remainder < 25 else
price - remainder + 50`. -/
def round_to_nearest_50 (price : ℚ) : ℚ :=
  let remainder := pyMod price 50
  if remainder < 25 then price - remainder else price - remainder + 50

/-- The spec's `resolve_atm_strike` restricted to granularity 50, written from
the spec's words for §4.4's input-constraint sentence: it *fails with
`InvalidInputError`* on a negative spot price rather than returning a strike.
Used only to compare against the code's `round_to_nearest_50`, which never
fails. -/
def resolve_atm_strike_spec (price : ℚ) : Except String ℚ :=
  if price < 0 then .error "InvalidInputError" else .ok (round_to_nearest_50 price)

lemma pyMod_nonneg (a b : ℚ) (hb : 0 < b) : 0 ≤ pyMod a b := by
  have h := Int.floor_le (a / b)
  have : (⌊a / b⌋ : ℚ) * b ≤ a := by
    rw [← le_div_iff₀ hb]; exact h
  unfold pyMod; nlinarith

lemma pyMod_lt (a b : ℚ) (hb : 0 < b) : pyMod a b < b := by
  have h := Int.lt_floor_add_one (a / b)
  have : a < (⌊a / b⌋ + 1 : ℚ) * b := by
    rw [← div_lt_iff₀ hb]; exact_mod_cast h
  unfold pyMod; nlinarith

lemma sub_pyMod_eq (a b : ℚ) : a - pyMod a b = b * ⌊a / b⌋ := by
  unfold pyMod; ring

/-- `date.weekday()` on an ordinal day number: Monday = 0 … Sunday = 6
(ordinal 1 = 0001-01-01 was a Monday). -/
def weekday (o : ℤ) : ℤ := (o + 6) % 7

/-- The loop condition of `get_last_trading_day` (total_mapper.py:291):
`current_date.weekday() < 5 and current_date.strftime('%Y-%m-%d') not in holidays`.
Holiday ISO strings are modelled by their (injectively corresponding) ordinal
day numbers. -/
def is_trading_day (d : ℤ) (holidays : List ℤ) : Bool :=
  decide (weekday d < 5) && !(decide (d ∈ holidays))

/-- The `while True` loop of `get_last_trading_day` (total_mapper.py:290-294):
return `current` if it is a trading day; otherwise step back one day and, once
`(date.today() - current_date).days > 10`, bail out with `today - 1`. -/
def get_last_trading_day_loop (today : ℤ) (holidays : List ℤ) (current : ℤ) : ℤ :=
  if is_trading_day current holidays then current
  else if today - (current - 1) > 10 then today - 1
  else get_last_trading_day_loop today holidays (current - 1)
termination_by (current - (today - 11)).toNat
decreasing_by omega

/-- Embedding of `get_last_trading_day(from_date=None)` (total_mapper.py:287-294).
`today` is the ambient `date.today()`; `from_date or date.today()` is `getD`
because a Python `date` is always truthy. -/
def get_last_trading_day (today : ℤ) (holidays : List ℤ) (from_date : Option ℤ) : ℤ :=
  get_last_trading_day_loop today holidays (from_date.getD today - 1)

/-- Embedding of `get_nearest_thursday_fallback` (total_mapper.py:102-115),
acting on the ordinal day number of `datetime.now()`. -/
def get_nearest_thursday_fallback (today : ℤ) : ℤ :=
  let current_weekday := weekday today
  if current_weekday < 3 then today + (3 - current_weekday)
  else if current_weekday = 3 then today
  else if current_weekday = 4 then today + 6
  else today + (3 - current_weekday) % 7

/-- Embedding of the variant `get_nearest_thursday_fallback`
(Upstox_access_token.py:110-123), which folds the Friday case into the
`(3 - w) % 7` branch. -/
def get_nearest_thursday_fallback_v2 (today : ℤ) : ℤ :=
  let current_weekday := weekday today
  let days_until_thursday :=
    if current_weekday < 3 then 3 - current_weekday
    else if current_weekday = 3 then 0
    else (3 - current_weekday) % 7
  today + days_until_thursday

/-- One record of the NSE instrument catalog, with the five fields the core
reads.  Each is `Option`-valued because Python's `dict.get` yields `None` for
a missing key (and `None` never equals a concrete target value). -/
structure Instrument where
  name : Option String
  expiry : Option ℤ
  strike_price : Option ℚ
  instrument_type : Option String
  instrument_key : Option String
deriving DecidableEq, Repr

/-- The match condition of `find_option_by_strike` (total_mapper.py:315-316):
all four fields equal their targets, the underlying name being fixed to
`'NIFTY'`. -/
def option_matches (inst : Instrument) (strike_price : ℚ) (option_type : String)
    (target_expiry_ts : ℤ) : Bool :=
  inst.name == some "NIFTY" && inst.expiry == some target_expiry_ts &&
    inst.strike_price == some strike_price && inst.instrument_type == some option_type

/-- Embedding of `find_option_by_strike` (total_mapper.py:313-318): scan the
catalog in order, return the first matching record, else `None`. -/
def find_option_by_strike (strike_price : ℚ) (option_type : String)
    (instruments : List Instrument) (target_expiry_ts : ℤ) : Option Instrument :=
  match instruments with
  | [] => none
  | inst :: rest =>
    if option_matches inst strike_price option_type target_expiry_ts then some inst
    else find_option_by_strike strike_price option_type rest target_expiry_ts

/-- Outcome of one blocking HTTP GET, as the fetchers observe it:
either the transport raised (any `requests` exception), or a response arrived
with a status code and a body whose relevant payload parsed to `some α`
(`none` when the JSON is malformed or a field conversion raises). -/
inductive FetchOutcome (α : Type) where
  | transportError : FetchOutcome α
  | response (status : ℕ) (body : Option α) : FetchOutcome α
deriving DecidableEq

/-- One parsed OHLCV candle as built by `fetch_historical_candles`
(total_mapper.py:329-330): a record with named fields, not a positional row. -/
structure Candle where
  timestamp : String
  open_price : ℚ
  high : ℚ
  low : ℚ
  close : ℚ
  volume : ℤ
deriving DecidableEq, Repr

/-- Embedding of `fetch_historical_candles` (total_mapper.py:320-332): only a
status-200 response with a parseable candle array yields candles; a transport
exception, any other status, or a parse failure yields `[]`.  The function is
total — no exception ever propagates. -/
def fetch_historical_candles (resp : FetchOutcome (List Candle)) : List Candle :=
  match resp with
  | .transportError => []
  | .response status body =>
    if status = 200 then
      match body with
      | some candles => candles
      | none => []
    else []

/-- One holiday record of the `/market/holidays` payload; `date` is
`holiday.get('date')`, hence `Option`. -/
structure HolidayRec where
  date : Option String
deriving DecidableEq

/-- Embedding of `get_market_holidays` (total_mapper.py:276-285): on a
status-200 response with a parseable `data` list, the list of `date` fields;
otherwise (transport error, other status, parse failure) `[]`. -/
def get_market_holidays (resp : FetchOutcome (List HolidayRec)) : List (Option String) :=
  match resp with
  | .transportError => []
  | .response status body =>
    if status = 200 then
      match body with
      | some hs => hs.map (fun h => h.date)
      | none => []
    else []

/-- Python's ASCII `str.upper()`, defined structurally on the character list
(so that concrete lookups evaluate). -/
def strUpper (s : String) : String := ⟨s.data.map Char.toUpper⟩

/-- Python's ASCII `str.lower()`, defined structurally on the character list. -/
def strLower (s : String) : String := ⟨s.data.map Char.toLower⟩

/-- `InstrumentMapper.SYMBOL_MAPPINGS` (total_mapper.py:228-232), as an ordered
association list from raw display names to canonical symbols. -/
def SYMBOL_MAPPINGS : List (String × String) :=
  [("NIFTY", "NIFTY"), ("NIFTY 50", "NIFTY"),
   ("BANKNIFTY", "BANKNIFTY"), ("NIFTY BANK", "BANKNIFTY"),
   ("FINNIFTY", "FINNIFTY"), ("NIFTY FIN SERVICE", "FINNIFTY"),
   ("NIFTY FINANCIAL SERVICES", "FINNIFTY"),
   ("MIDCPNIFTY", "MIDCPNIFTY"), ("NIFTY MIDCAP SELECT", "MIDCPNIFTY"),
   ("SENSEX", "SENSEX"), ("BANKEX", "BANKEX")]

/-- Modelled from the spec: the Symbol Normalizer's lookup function is absent
from `src/` (`InstrumentMapper.run` is a stub that only loads the catalogs), so
§4.2's contract is modelled over the source's `SYMBOL_MAPPINGS` table:
"given a raw display name, returns the canonical symbol using case-insensitive
exact-string lookup against the CanonicalSymbolMap", returning `none` as the
unmapped sentinel. -/
def normalize (raw : String) : Option String :=
  (SYMBOL_MAPPINGS.find? (fun p => strUpper p.1 == strUpper raw)).map (fun p => p.2)

/-- A calendar date as year/month/day numbers, for the `strftime` formatting
used by the persister. -/
structure Ymd where
  year : ℕ
  month : ℕ
  day : ℕ
deriving DecidableEq, Repr

/-- Zero-padded two-digit field, as `strftime`'s `%d` and `%m` produce. -/
def pad2 (n : ℕ) : String := if n < 10 then "0" ++ toString n else toString n

/-- Zero-padded four-digit year, as `strftime`'s `%Y` produces for CE years. -/
def pad4 (n : ℕ) : String :=
  if n < 10 then "000" ++ toString n
  else if n < 100 then "00" ++ toString n
  else if n < 1000 then "0" ++ toString n
  else toString n

/-- `target_date.strftime('%d%m')` — day then month (total_mapper.py:362). -/
def strftime_ddmm (d : Ymd) : String := pad2 d.day ++ pad2 d.month

/-- `target_date.strftime('%Y-%m-%d')` (total_mapper.py:363). -/
def strftime_iso (d : Ymd) : String :=
  pad4 d.year ++ "-" ++ pad2 d.month ++ "-" ++ pad2 d.day

/-- Python's `int()` on a real value: truncation toward zero. -/
def pyInt (q : ℚ) : ℤ := if q < 0 then ⌈q⌉ else ⌊q⌋

/-- The persisted file name built by `fetch_atm_data` (total_mapper.py:362):
`f"{int(atm_strike)}_{target_date.strftime('%d%m')}_{option_type.lower()}.json"`. -/
def atm_filename (atm_strike : ℚ) (target_date : Ymd) (option_type : String) : String :=
  toString (pyInt atm_strike) ++ "_" ++ strftime_ddmm target_date ++ "_" ++
    strLower option_type ++ ".json"

/-- The file name the spec's naming convention `{strike}_{MMDD}_{ce|pe}.json`
(§6) prescribes, written from the spec's words to compare with the code's
`atm_filename`. -/
def spec_filename_mmdd (atm_strike : ℚ) (target_date : Ymd) (option_type : String) : String :=
  toString (pyInt atm_strike) ++ "_" ++ pad2 target_date.month ++ pad2 target_date.day ++
    "_" ++ strLower option_type ++ ".json"

/-- The JSON object written for one option leg (total_mapper.py:363):
`{**option, 'trading_date': target_date.strftime('%Y-%m-%d'), 'candles': candles}` —
the contract metadata, the ISO trading date, and the candles as structured
records. -/
structure PersistedFile where
  contract : Instrument
  trading_date : String
  candles : List Candle
deriving DecidableEq

/-- The write step of `fetch_atm_data` for one leg (total_mapper.py:361-364),
acting on a file store modelled as a map from path to content: when the candle
list is non-empty, `open(filename, 'w')` + `json.dump` replaces whatever was at
that path with the freshly serialized object; no other path changes.  When the
candle list is empty nothing is written. -/
def persist_leg (store : String → Option PersistedFile) (option : Instrument)
    (atm_strike : ℚ) (target_date : Ymd) (option_type : String)
    (candles : List Candle) : String → Option PersistedFile :=
  if candles = [] then store
  else fun path =>
    if path = atm_filename atm_strike target_date option_type then
      some ⟨option, strftime_iso target_date, candles⟩
    else store path

lemma round_to_nearest_50_eq (price : ℚ) :
    round_to_nearest_50 price =
      if pyMod price 50 < 25 then price - pyMod price 50
      else price - pyMod price 50 + 50 := rfl

lemma pyMod_125 : pyMod 125 50 = 25 := by
  unfold pyMod
  rw [show ((125 : ℚ) / 50) = 5 / 2 by norm_num,
    show ⌊(5 / 2 : ℚ)⌋ = 2 by rw [Int.floor_eq_iff] <;> norm_num]
  norm_num

lemma pyMod_124 : pyMod 124 50 = 24 := by
  unfold pyMod
  rw [show ((124 : ℚ) / 50) = 62 / 25 by norm_num,
    show ⌊(62 / 25 : ℚ)⌋ = 2 by rw [Int.floor_eq_iff] <;> norm_num]
  norm_num

lemma pyMod_neg30 : pyMod (-30) 50 = 20 := by
  unfold pyMod
  rw [show ((-30 : ℚ) / 50) = -3 / 5 by norm_num,
    show ⌊(-3 / 5 : ℚ)⌋ = -1 by rw [Int.floor_eq_iff] <;> norm_num]
  norm_num

lemma round_to_nearest_50_mul (price : ℚ) :
    ∃ k : ℤ, round_to_nearest_50 price = 50 * k := by
  rw [round_to_nearest_50_eq]
  split
  · exact ⟨⌊price / 50⌋, sub_pyMod_eq price 50⟩
  · refine ⟨⌊price / 50⌋ + 1, ?_⟩
    have := sub_pyMod_eq price 50
    push_cast
    linarith

/-- C1: `round_to_nearest_50` computes `remainder = price % 50` and returns
`price - remainder` when `remainder < 25` (= granularity/2) and
`price - remainder + 50` otherwise; in particular the exact midpoint
`remainder = 25` rounds up. -/
theorem atm_strike_rounding_policy (price : ℚ) :
    (pyMod price 50 < 25 → round_to_nearest_50 price = price - pyMod price 50) ∧
    (¬ pyMod price 50 < 25 → round_to_nearest_50 price = price - pyMod price 50 + 50) ∧
    (pyMod price 50 = 25 → round_to_nearest_50 price = price - pyMod price 50 + 50) := by
  rw [round_to_nearest_50_eq]
  refine ⟨fun h => ?_, fun h => ?_, fun h => ?_⟩ <;> simp [h]

/-- Witness for C1 at the concrete midpoint input 125. -/
theorem atm_strike_rounding_policy_witness :
    pyMod 125 50 = 25 ∧ round_to_nearest_50 125 = 125 - pyMod 125 50 + 50 :=
  ⟨pyMod_125, (atm_strike_rounding_policy 125).2.2 pyMod_125⟩

/-- C2: for every non-negative spot price, the ATM strike is an exact multiple
of 50, lies within 25 of the spot, the midpoint ties upward, and concretely
spot 125 yields 150 while spot 124 yields 100. -/
theorem atm_strike_algebraic_props (price : ℚ) (hp : 0 ≤ price) :
    (∃ k : ℤ, round_to_nearest_50 price = 50 * k) ∧
    |round_to_nearest_50 price - price| ≤ 25 ∧
    (pyMod price 50 = 25 → round_to_nearest_50 price = price + 25) ∧
    round_to_nearest_50 125 = 150 ∧ round_to_nearest_50 124 = 100 := by
  have h0 := pyMod_nonneg price 50 (by norm_num)
  have h50 := pyMod_lt price 50 (by norm_num)
  refine ⟨round_to_nearest_50_mul price, ?_, fun h => ?_, ?_, ?_⟩
  · rw [round_to_nearest_50_eq]
    split <;> rw [abs_le] <;> constructor <;> linarith
  · rw [round_to_nearest_50_eq, if_neg (by rw [h]; norm_num), h]
    ring
  · rw [round_to_nearest_50_eq, if_neg (by rw [pyMod_125]; norm_num), pyMod_125]
    norm_num
  · rw [round_to_nearest_50_eq, if_pos (by rw [pyMod_124]; norm_num), pyMod_124]
    norm_num

/-- Witness for C2 at the concrete spot price 125. -/
theorem atm_strike_algebraic_props_witness :
    (0 : ℚ) ≤ 125 ∧ |round_to_nearest_50 125 - 125| ≤ 25 :=
  ⟨by norm_num, (atm_strike_algebraic_props 125 (by norm_num)).2.1⟩

/-- Counterexample to C3: at the negative spot price −30 the resolver does not
fail — it returns the strike −50 = 50 · (−1), while the spec's
`resolve_atm_strike` would fail with `InvalidInputError`. -/
theorem atm_strike_no_validation_counterexample :
    round_to_nearest_50 (-30) = -50 ∧ (-50 : ℚ) = 50 * (-1 : ℤ) ∧
    resolve_atm_strike_spec (-30) = .error "InvalidInputError" := by
  refine ⟨?_, by norm_num, by unfold resolve_atm_strike_spec; norm_num⟩
  rw [round_to_nearest_50_eq, if_pos (by rw [pyMod_neg30]; norm_num), pyMod_neg30]
  norm_num

/-- C3 amended: `round_to_nearest_50` performs no input validation and never
fails; for every negative spot price it still returns an exact multiple of 50
(Python's `%` yields a non-negative remainder for a positive modulus). -/
theorem atm_strike_no_validation (price : ℚ) (hp : price < 0) :
    ∃ k : ℤ, round_to_nearest_50 price = 50 * k :=
  round_to_nearest_50_mul price

/-- Witness for the amended C3 at the concrete spot price −30. -/
theorem atm_strike_no_validation_witness :
    (-30 : ℚ) < 0 ∧ ∃ k : ℤ, round_to_nearest_50 (-30) = 50 * k :=
  ⟨by norm_num, atm_strike_no_validation (-30) (by norm_num)⟩

lemma loop_finds (today : ℤ) (holidays : List ℤ) (current : ℤ)
    (h : ∃ c, today - 10 ≤ c ∧ c ≤ current ∧ is_trading_day c holidays = true) :
    is_trading_day (get_last_trading_day_loop today holidays current) holidays = true ∧
    get_last_trading_day_loop today holidays current ≤ current ∧
    ∀ d, get_last_trading_day_loop today holidays current < d → d ≤ current →
      is_trading_day d holidays = false := by
  revert h
  induction current using get_last_trading_day_loop.induct today holidays with
  | case1 x hx =>
    intro _
    rw [get_last_trading_day_loop, if_pos hx]
    exact ⟨hx, le_refl x, fun d h1 h2 => by omega⟩
  | case2 x hx hb =>
    rintro ⟨c, hc1, hc2, hc3⟩
    exfalso
    have hne : c ≠ x := by
      intro e
      rw [e] at hc3
      exact hx hc3
    omega
  | case3 x hx hb ih =>
    rintro ⟨c, hc1, hc2, hc3⟩
    rw [get_last_trading_day_loop, if_neg hx, if_neg hb]
    have hne : c ≠ x := by
      intro e
      rw [e] at hc3
      exact hx hc3
    obtain ⟨ih1, ih2, ih3⟩ := ih ⟨c, hc1, by omega, hc3⟩
    refine ⟨ih1, by omega, fun d hd1 hd2 => ?_⟩
    by_cases hdx : d = x
    · rw [hdx]
      exact Bool.eq_false_iff.mpr hx
    · exact ih3 d hd1 (by omega)

lemma loop_exhausts (today : ℤ) (holidays : List ℤ) (current : ℤ)
    (h1 : is_trading_day current holidays = false)
    (h2 : ∀ c, today - 10 ≤ c → c ≤ current → is_trading_day c holidays = false) :
    get_last_trading_day_loop today holidays current = today - 1 := by
  revert h1 h2
  induction current using get_last_trading_day_loop.induct today holidays with
  | case1 x hx =>
    intro h1 _
    rw [hx] at h1
    exact absurd h1 (by simp)
  | case2 x hx hb =>
    intro _ _
    rw [get_last_trading_day_loop, if_neg hx, if_pos hb]
  | case3 x hx hb ih =>
    intro _ h2
    rw [get_last_trading_day_loop, if_neg hx, if_neg hb]
    exact ih (h2 (x - 1) (by omega) (by omega)) (fun c hc1 hc2 => h2 c hc1 (by omega))

/-- C4: `get_last_trading_day` starts at the reference date minus one day and
steps backward, returning the first candidate that is a Monday–Friday
non-holiday; whenever such a day exists in the ten-day lookback window the
result is never a Saturday (weekday 5), never a Sunday (weekday 6), and never
a member of the holiday list. -/
theorem get_last_trading_day_correct (today : ℤ) (holidays : List ℤ) (from_date : Option ℤ)
    (h : ∃ c, today - 10 ≤ c ∧ c ≤ from_date.getD today - 1 ∧
      is_trading_day c holidays = true) :
    weekday (get_last_trading_day today holidays from_date) ≠ 5 ∧
    weekday (get_last_trading_day today holidays from_date) ≠ 6 ∧
    get_last_trading_day today holidays from_date ∉ holidays ∧
    get_last_trading_day today holidays from_date ≤ from_date.getD today - 1 ∧
    ∀ d, get_last_trading_day today holidays from_date < d →
      d ≤ from_date.getD today - 1 → is_trading_day d holidays = false := by
  obtain ⟨ht, hle, hfirst⟩ := loop_finds today holidays (from_date.getD today - 1) h
  rw [show get_last_trading_day_loop today holidays (from_date.getD today - 1) =
      get_last_trading_day today holidays from_date from rfl] at ht hle hfirst
  have ht' : weekday (get_last_trading_day today holidays from_date) < 5 ∧
      get_last_trading_day today holidays from_date ∉ holidays := by
    simpa [is_trading_day] using ht
  exact ⟨by omega, by omega, ht'.2, hle, hfirst⟩

/-- Witness for C4: reference date (ordinal) 10 with no holidays; the resolver
returns day 9, a Tuesday. -/
theorem get_last_trading_day_correct_witness :
    (∃ c : ℤ, (10 : ℤ) - 10 ≤ c ∧ c ≤ (some (10 : ℤ)).getD 10 - 1 ∧
      is_trading_day c [] = true) ∧
    weekday (get_last_trading_day 10 [] (some 10)) ≠ 5 ∧
    get_last_trading_day 10 [] (some 10) ∉ ([] : List ℤ) := by
  have h : ∃ c : ℤ, (10 : ℤ) - 10 ≤ c ∧ c ≤ (some (10 : ℤ)).getD 10 - 1 ∧
      is_trading_day c [] = true := ⟨9, by decide, by decide, by decide⟩
  obtain ⟨h5, _, hmem, _, _⟩ := get_last_trading_day_correct 10 [] (some 10) h
  exact ⟨h, h5, hmem⟩

/-- Counterexample to C5: with today = 15, reference date 12 and holidays
covering every examined candidate 5…11, the resolver returns 14 = today − 1,
not reference − 1 = 11. -/
theorem fallback_not_reference_counterexample :
    get_last_trading_day 15 [5, 6, 7, 8, 9, 10, 11] (some 12) = 14 ∧
    (14 : ℤ) ≠ 12 - 1 := by
  constructor
  · have h2 : ∀ c : ℤ, (15 : ℤ) - 10 ≤ c → c ≤ 11 →
        is_trading_day c [5, 6, 7, 8, 9, 10, 11] = false := by
      intro c hc1 hc2
      have hl : 5 ≤ c := by omega
      interval_cases c <;> decide
    have := loop_exhausts 15 [5, 6, 7, 8, 9, 10, 11] 11 (by decide) h2
    have e : get_last_trading_day 15 [5, 6, 7, 8, 9, 10, 11] (some 12) =
        get_last_trading_day_loop 15 [5, 6, 7, 8, 9, 10, 11] 11 := rfl
    rw [e, this]
    norm_num
  · norm_num

/-- C5 amended: when no valid trading day is found among the examined
candidates, the resolver falls back to `date.today() − 1` — the *current* date
minus one day — which coincides with `reference_date − 1` only in the default
call where the reference is today; the fallback may be a weekend or holiday. -/
theorem get_last_trading_day_fallback (today : ℤ) (holidays : List ℤ) (from_date : Option ℤ)
    (h1 : is_trading_day (from_date.getD today - 1) holidays = false)
    (h2 : ∀ c, today - 10 ≤ c → c ≤ from_date.getD today - 1 →
      is_trading_day c holidays = false) :
    get_last_trading_day today holidays from_date = today - 1 :=
  loop_exhausts today holidays (from_date.getD today - 1) h1 h2

/-- Witness for the amended C5 at the concrete counterexample scenario. -/
theorem get_last_trading_day_fallback_witness :
    is_trading_day ((some (12 : ℤ)).getD 15 - 1) [5, 6, 7, 8, 9, 10, 11] = false ∧
    get_last_trading_day 15 [5, 6, 7, 8, 9, 10, 11] (some 12) = 15 - 1 := by
  have h1 : is_trading_day ((some (12 : ℤ)).getD 15 - 1) [5, 6, 7, 8, 9, 10, 11] = false := by
    decide
  refine ⟨h1, get_last_trading_day_fallback 15 [5, 6, 7, 8, 9, 10, 11] (some 12) h1 ?_⟩
  intro c hc1 hc2
  have hl : 5 ≤ c := by omega
  have hr : c ≤ 11 := by simpa using hc2
  interval_cases c <;> decide

lemma find_option_by_strike_none_iff (strike_price : ℚ) (option_type : String)
    (instruments : List Instrument) (target_expiry_ts : ℤ) :
    find_option_by_strike strike_price option_type instruments target_expiry_ts = none ↔
      ∀ inst ∈ instruments,
        option_matches inst strike_price option_type target_expiry_ts = false := by
  induction instruments with
  | nil => simp [find_option_by_strike]
  | cons inst rest ih =>
    rw [find_option_by_strike]
    split
    · rename_i hm
      constructor
      · intro h
        simp at h
      · intro hall
        have hcontr := hall inst (List.mem_cons_self inst rest)
        rw [hm] at hcontr
        simp at hcontr
    · rename_i hm
      rw [ih]
      constructor
      · intro h i hi
        rcases List.mem_cons.mp hi with rfl | hi'
        · exact Bool.eq_false_iff.mpr hm
        · exact h i hi'
      · intro h i hi
        exact h i (List.mem_cons_of_mem inst hi)

lemma find_option_by_strike_some (strike_price : ℚ) (option_type : String)
    (instruments : List Instrument) (target_expiry_ts : ℤ) (r : Instrument)
    (h : find_option_by_strike strike_price option_type instruments target_expiry_ts = some r) :
    ∃ pre post, instruments = pre ++ r :: post ∧
      option_matches r strike_price option_type target_expiry_ts = true ∧
      ∀ inst ∈ pre,
        option_matches inst strike_price option_type target_expiry_ts = false := by
  induction instruments with
  | nil => simp [find_option_by_strike] at h
  | cons inst rest ih =>
    rw [find_option_by_strike] at h
    by_cases hm : option_matches inst strike_price option_type target_expiry_ts = true
    · rw [if_pos hm] at h
      obtain rfl : inst = r := by simpa using h
      exact ⟨[], rest, rfl, hm, by simp⟩
    · rw [if_neg hm] at h
      obtain ⟨pre, post, he, hr, hpre⟩ := ih h
      refine ⟨inst :: pre, post, by rw [he]; rfl, hr, fun i hi => ?_⟩
      rcases List.mem_cons.mp hi with rfl | hi'
      · exact Bool.eq_false_iff.mpr hm
      · exact hpre i hi'

/-- C6: `find_option_by_strike` returns the first catalog record whose four
fields match the targets exactly and `none` when no record matches; over the
empty catalog it returns `none`, and (being a total function on arbitrary
records with `Option`-valued fields) a non-matching or field-less record never
causes an exception. -/
theorem find_option_by_strike_correct (strike_price : ℚ) (option_type : String)
    (instruments : List Instrument) (target_expiry_ts : ℤ) :
    find_option_by_strike strike_price option_type [] target_expiry_ts = none ∧
    (find_option_by_strike strike_price option_type instruments target_expiry_ts = none ↔
      ∀ inst ∈ instruments,
        option_matches inst strike_price option_type target_expiry_ts = false) ∧
    (∀ r, find_option_by_strike strike_price option_type instruments target_expiry_ts =
        some r →
      ∃ pre post, instruments = pre ++ r :: post ∧
        option_matches r strike_price option_type target_expiry_ts = true ∧
        ∀ inst ∈ pre,
          option_matches inst strike_price option_type target_expiry_ts = false) :=
  ⟨rfl, find_option_by_strike_none_iff strike_price option_type instruments target_expiry_ts,
    fun r => find_option_by_strike_some strike_price option_type instruments target_expiry_ts r⟩

/-- Witness for C6: a catalog holding one record with every field missing is
scanned without incident and yields `none`. -/
theorem find_option_by_strike_correct_witness :
    find_option_by_strike 22000 "CE" [⟨none, none, none, none, none⟩] 100 = none :=
  (find_option_by_strike_correct 22000 "CE" [⟨none, none, none, none, none⟩] 100).2.1.mpr
    (by decide)

/-- C7: both fetchers return `[]` on a transport failure and on any non-2xx
response, and (being total functions) never propagate an exception. -/
theorem fetch_best_effort :
    fetch_historical_candles .transportError = [] ∧
    (∀ (status : ℕ) (body : Option (List Candle)), ¬(200 ≤ status ∧ status ≤ 299) →
      fetch_historical_candles (.response status body) = []) ∧
    get_market_holidays .transportError = [] ∧
    (∀ (status : ℕ) (body : Option (List HolidayRec)), ¬(200 ≤ status ∧ status ≤ 299) →
      get_market_holidays (.response status body) = []) := by
  refine ⟨rfl, fun status body h => ?_, rfl, fun status body h => ?_⟩
  · have h200 : status ≠ 200 := by omega
    simp only [fetch_historical_candles]
    rw [if_neg h200]
  · have h200 : status ≠ 200 := by omega
    simp only [get_market_holidays]
    rw [if_neg h200]

/-- Witness for C7: a 404 with a non-empty parsed body and a 500 holiday
response both collapse to `[]`. -/
theorem fetch_best_effort_witness :
    ¬((200 : ℕ) ≤ 404 ∧ (404 : ℕ) ≤ 299) ∧
    fetch_historical_candles (.response 404 (some [⟨"t", 1, 2, 3, 4, 5⟩])) = [] ∧
    get_market_holidays (.response 500 (some [⟨some "2025-01-01"⟩])) = [] :=
  ⟨by omega, fetch_best_effort.2.1 404 (some [⟨"t", 1, 2, 3, 4, 5⟩]) (by omega),
    fetch_best_effort.2.2.2 500 (some [⟨some "2025-01-01"⟩]) (by omega)⟩

lemma normalize_canonical :
    ∀ p ∈ SYMBOL_MAPPINGS, normalize p.2 = some p.2 := by decide

/-- C8: normalization over `SYMBOL_MAPPINGS` is case-insensitive (lookup
depends only on the uppercased raw name) and idempotent (every canonical
symbol, hence every normalization result, maps to itself), and both
`"nifty 50"` and `"NIFTY 50"` normalize to `"NIFTY"`. -/
theorem normalize_props :
    normalize "nifty 50" = some "NIFTY" ∧
    normalize "NIFTY 50" = some "NIFTY" ∧
    (∀ p ∈ SYMBOL_MAPPINGS, normalize p.2 = some p.2) ∧
    (∀ raw c, normalize raw = some c → normalize c = some c) ∧
    (∀ s t, strUpper s = strUpper t → normalize s = normalize t) := by
  refine ⟨by decide, by decide, normalize_canonical, fun raw c h => ?_, fun s t h => ?_⟩
  · unfold normalize at h
    cases hf : SYMBOL_MAPPINGS.find? (fun q => strUpper q.1 == strUpper raw) with
    | none => rw [hf] at h; simp at h
    | some p =>
      rw [hf] at h
      obtain rfl : p.2 = c := by simpa using h
      exact normalize_canonical p (List.mem_of_find?_eq_some hf)
  · unfold normalize
    rw [h]

/-- Witness for C8: idempotence applied at the concrete raw name "NIFTY 50",
whose result "NIFTY" renormalizes to itself. -/
theorem normalize_props_witness :
    normalize "NIFTY 50" = some "NIFTY" ∧ normalize "NIFTY" = some "NIFTY" :=
  ⟨normalize_props.2.1, normalize_props.2.2.2.1 "NIFTY 50" "NIFTY" normalize_props.2.1⟩

/-- Counterexample to C9: the code names the file with
`target_date.strftime('%d%m')` — day then month — so for 2025-01-30 it writes
`22000_3001_ce.json`, not the `{strike}_{MMDD}_{ce|pe}.json` convention's
`22000_0130_ce.json`. -/
theorem filename_ddmm_counterexample :
    atm_filename 22000 ⟨2025, 1, 30⟩ "CE" = "22000_3001_ce.json" ∧
    spec_filename_mmdd 22000 ⟨2025, 1, 30⟩ "CE" = "22000_0130_ce.json" ∧
    atm_filename 22000 ⟨2025, 1, 30⟩ "CE" ≠ spec_filename_mmdd 22000 ⟨2025, 1, 30⟩ "CE" := by
  refine ⟨by decide, by decide, by decide⟩

/-- C9 amended: for a leg with a non-empty candle list the persister writes
exactly one file — named `{int(strike)}_{DDMM}_{ce|pe}.json` (day before
month) — whose content is the contract metadata, the `YYYY-MM-DD` trading
date, and the candles as named-field records; the write fully replaces any
previous content at that path and touches no other path. -/
theorem persist_leg_props (store : String → Option PersistedFile) (option : Instrument)
    (atm_strike : ℚ) (target_date : Ymd) (option_type : String) (candles : List Candle)
    (h : candles ≠ []) :
    persist_leg store option atm_strike target_date option_type candles
        (atm_filename atm_strike target_date option_type) =
      some ⟨option, strftime_iso target_date, candles⟩ ∧
    (∀ path, path ≠ atm_filename atm_strike target_date option_type →
      persist_leg store option atm_strike target_date option_type candles path =
        store path) ∧
    atm_filename atm_strike target_date option_type =
      toString (pyInt atm_strike) ++ "_" ++ strftime_ddmm target_date ++ "_" ++
        strLower option_type ++ ".json" ∧
    strftime_ddmm target_date = pad2 target_date.day ++ pad2 target_date.month := by
  unfold persist_leg
  rw [if_neg h]
  exact ⟨by rw [if_pos rfl], fun path hp => by rw [if_neg hp], rfl, rfl⟩

/-- Witness for the amended C9 at a concrete leg. -/
theorem persist_leg_props_witness :
    ([⟨"t", 1, 2, 3, 4, 5⟩] : List Candle) ≠ [] ∧
    persist_leg (fun _ => some ⟨⟨none, none, none, none, none⟩, "old", []⟩)
        ⟨some "NIFTY", some 100, some 22000, some "CE", some "KEY"⟩
        22000 ⟨2025, 1, 30⟩ "CE" [⟨"t", 1, 2, 3, 4, 5⟩]
        (atm_filename 22000 ⟨2025, 1, 30⟩ "CE") =
      some ⟨⟨some "NIFTY", some 100, some 22000, some "CE", some "KEY"⟩,
        strftime_iso ⟨2025, 1, 30⟩, [⟨"t", 1, 2, 3, 4, 5⟩]⟩ :=
  ⟨by decide,
    (persist_leg_props (fun _ => some ⟨⟨none, none, none, none, none⟩, "old", []⟩)
      ⟨some "NIFTY", some 100, some 22000, some "CE", some "KEY"⟩
      22000 ⟨2025, 1, 30⟩ "CE" [⟨"t", 1, 2, 3, 4, 5⟩] (by decide)).1⟩

/-- C10: the Thursday-expiry fallback always lands on a Thursday (weekday 3),
never before and at most seven days after the current date, returns the
current date when it is itself a Thursday — and the two source copies of the
helper agree everywhere. -/
theorem thursday_fallback_props (today : ℤ) :
    weekday (get_nearest_thursday_fallback today) = 3 ∧
    today ≤ get_nearest_thursday_fallback today ∧
    get_nearest_thursday_fallback today ≤ today + 7 ∧
    (weekday today = 3 → get_nearest_thursday_fallback today = today) ∧
    get_nearest_thursday_fallback_v2 today = get_nearest_thursday_fallback today := by
  simp only [get_nearest_thursday_fallback, get_nearest_thursday_fallback_v2, weekday]
  refine ⟨?_, ?_, ?_, ?_, ?_⟩ <;> split_ifs <;> omega

/-- Witness for C10 at concrete days: ordinal 3 (a Wednesday) maps to 4, and
ordinal 4 (a Thursday) maps to itself. -/
theorem thursday_fallback_props_witness :
    weekday (get_nearest_thursday_fallback 3) = 3 ∧
    weekday (4 : ℤ) = 3 ∧ get_nearest_thursday_fallback 4 = 4 :=
  ⟨(thursday_fallback_props 3).1, by decide,
    (thursday_fallback_props 4).2.2.2.1 (by decide)⟩

end TradingSetup
